import Mathlib

/-!
# pe-sieve: artefact scanner records (`scanners/artefact_scanner.h`)

A shallow embedding of the value types declared in `scanners/artefact_scanner.h`
(`PeArtefacts`, `ArtefactScanReport`, `ArtefactScanner::ArtefactsMapping`) and of
their inline member functions, followed by theorems about them.

Machine integers are natural numbers (or integers, for the signed `LONGLONG`)
with the reductions modulo `2 ^ bits` written out.  `size_t` is 32 bits wide in
the x86 build and 64 bits wide in the x64 build; `ULONGLONG` and `LONGLONG` are
64 bits wide in both.  Pointers are addresses, `nullptr` being address `0`.
-/

namespace pesieve

/-! ## Machine integers -/

/-- The build target: it fixes the width of `size_t`. -/
inductive Target where
  | x86
  | x64
  deriving DecidableEq, Repr

/-- Width of `size_t` in bits. -/
def Target.sizeBits : Target → Nat
  | .x86 => 32
  | .x64 => 64

/-- Conversion of a signed integer to the unsigned type of `bits` bits. -/
def toUnsigned (bits : Nat) (i : Int) : Nat :=
  (i % (2 : Int) ^ bits).toNat

/-- The macro `INVALID_OFFSET`, an `int` expression: `(-1)`. -/
def INVALID_OFFSET : Int := -1

/-- The macro `PE_NOT_FOUND`: `0`. -/
def PE_NOT_FOUND : Nat := 0

/-- The value of `INVALID_OFFSET` converted to `size_t`. -/
def invalidSize (t : Target) : Nat := toUnsigned t.sizeBits INVALID_OFFSET

/-- The value of `INVALID_OFFSET` converted to `ULONGLONG`. -/
def invalidU64 : Nat := toUnsigned 64 INVALID_OFFSET

/-- Predicate: the value fits a `size_t`. -/
def IsSizeT (t : Target) (n : Nat) : Prop := n < 2 ^ t.sizeBits

/-- Predicate: the value fits a `ULONGLONG`. -/
def IsU64 (n : Nat) : Prop := n < 2 ^ 64

/-- Predicate: the value fits a `LONGLONG`. -/
def IsI64 (i : Int) : Prop := -(2 : Int) ^ 63 ≤ i ∧ i < (2 : Int) ^ 63

instance (t : Target) (n : Nat) : Decidable (IsSizeT t n) := by
  unfold IsSizeT; infer_instance

instance (n : Nat) : Decidable (IsU64 n) := by
  unfold IsU64; infer_instance

instance (i : Int) : Decidable (IsI64 i) := by
  unfold IsI64; infer_instance

/-! ## `PeArtefacts` -/

/-- The data members of `class PeArtefacts`. -/
structure PeArtefacts where
  regionStart : Int
  peBaseOffset : Nat
  ntFileHdrsOffset : Nat
  secHdrsOffset : Nat
  secCount : Nat
  calculatedImgSize : Nat
  isMzPeFound : Bool
  isDll : Bool
  is64bit : Bool
  deriving DecidableEq, Repr

/-- Every member holds a value of its declared C++ type. -/
def PeArtefacts.WellTyped (t : Target) (a : PeArtefacts) : Prop :=
  IsI64 a.regionStart ∧ IsSizeT t a.peBaseOffset ∧ IsSizeT t a.ntFileHdrsOffset ∧
  IsSizeT t a.secHdrsOffset ∧ IsSizeT t a.secCount ∧ IsSizeT t a.calculatedImgSize

instance (t : Target) (a : PeArtefacts) : Decidable (a.WellTyped t) := by
  unfold PeArtefacts.WellTyped; infer_instance

/-- The constructor `PeArtefacts::PeArtefacts()`. -/
def PeArtefacts.new (t : Target) : PeArtefacts where
  regionStart := INVALID_OFFSET
  peBaseOffset := invalidSize t
  ntFileHdrsOffset := invalidSize t
  secHdrsOffset := invalidSize t
  secCount := 0
  calculatedImgSize := 0
  isMzPeFound := false
  isDll := true
  is64bit := false

/-- Member function `PeArtefacts::hasNtHdrs`. -/
def PeArtefacts.hasNtHdrs (t : Target) (a : PeArtefacts) : Bool :=
  a.ntFileHdrsOffset != invalidSize t

/-- Member function `PeArtefacts::hasSectionHdrs`. -/
def PeArtefacts.hasSectionHdrs (t : Target) (a : PeArtefacts) : Bool :=
  a.secHdrsOffset != invalidSize t

/-- Member function `PeArtefacts::peImageBase`: `peBaseOffset + regionStart`, returned
as `ULONGLONG`.  In the x64 build `size_t` is an unsigned 64-bit type, so `regionStart`
is converted to it and the sum is unsigned.  In the x86 build `size_t` is a 32-bit type,
so `peBaseOffset` is converted to `LONGLONG`, the sum is signed (an overflowing signed
sum is taken to wrap), and the return converts it to `ULONGLONG`. -/
def PeArtefacts.peImageBase (t : Target) (a : PeArtefacts) : Nat :=
  match t with
  | .x64 => (a.peBaseOffset + toUnsigned 64 a.regionStart) % 2 ^ 64
  | .x86 => toUnsigned 64 ((a.peBaseOffset : Int) + a.regionStart)

/-- Member function `PeArtefacts::dropPeBase`.  Each comparison converts `INVALID_OFFSET` to the type of
the other operand; the result type is `ULONGLONG`. -/
def PeArtefacts.dropPeBase (t : Target) (a : PeArtefacts) (offset_with_pe_base : Nat) : Nat :=
  if a.peBaseOffset = invalidSize t ∨ offset_with_pe_base = invalidU64 then
    invalidU64
  else if offset_with_pe_base < a.peBaseOffset then
    invalidU64
  else
    (offset_with_pe_base + 2 ^ 64 - a.peBaseOffset) % 2 ^ 64

/-! ## `ArtefactScanReport` -/

/-- Values of the enumeration `t_scan_status`, declared in another header: a value is
represented by its underlying integer. -/
abbrev t_scan_status := Int

/-- The members of the base class `WorkingSetScanReport` (declared in
`workingset_scanner.h` and `module_scan_report.h`) that this header reads or writes. -/
structure WorkingSetScanReport where
  processHandle : Nat
  module : Nat
  moduleSize : Nat
  status : t_scan_status
  is_executable : Bool
  protection : Nat
  has_pe : Bool
  has_shellcode : Bool
  deriving DecidableEq, Repr

/-- The type of the base constructor
`WorkingSetScanReport(processHandle, _module, _moduleSize, status)`, whose body lives in
another header: the derived constructor below takes it as a parameter. -/
abbrev BaseCtor := Nat → Nat → Nat → t_scan_status → WorkingSetScanReport

/-- The base constructor stores the supplied module size unchanged. -/
def BaseCtor.StoresSize (base : BaseCtor) : Prop :=
  ∀ h m sz st, (base h m sz st).moduleSize = sz

/-- The class `ArtefactScanReport`: the base report and the two members added to it. -/
structure ArtefactScanReport extends WorkingSetScanReport where
  artefacts : PeArtefacts
  initialRegionSize : Nat
  deriving DecidableEq, Repr

/-- The constructor `ArtefactScanReport::ArtefactScanReport`: the base constructor, the
member initialisers, then the body.  `total_region_size` is a `size_t` sum. -/
def ArtefactScanReport.new (t : Target) (base : BaseCtor) (processHandle _module _moduleSize : Nat)
    (status : t_scan_status) (peArt : PeArtefacts) : ArtefactScanReport :=
  let b0 := base processHandle _module _moduleSize status
  let b1 := { b0 with is_executable := true, protection := 0, has_pe := true, has_shellcode := false }
  let total_region_size := (peArt.calculatedImgSize + peArt.peBaseOffset) % 2 ^ t.sizeBits
  let b2 := if total_region_size > b1.moduleSize then { b1 with moduleSize := total_region_size } else b1
  { toWorkingSetScanReport := b2, artefacts := peArt, initialRegionSize := _moduleSize }

/-! ## `ArtefactScanner::ArtefactsMapping` -/

/-- The data members of `ArtefactScanner::ArtefactsMapping`.  The reference `memPage` is
represented by the address of the page object it is bound to; the three header pointers
are addresses, `0` being `nullptr`. -/
structure ArtefactsMapping where
  memPage : Nat
  pe_image_base : Nat
  dos_hdr : Nat
  nt_file_hdr : Nat
  sec_hdr : Nat
  sec_count : Nat
  isMzPeFound : Bool
  is64bit : Bool
  deriving DecidableEq, Repr

/-- The constructor `ArtefactsMapping(_memPage, _is64bit)`. -/
def ArtefactsMapping.new (_memPage : Nat) (_is64bit : Bool) : ArtefactsMapping where
  memPage := _memPage
  pe_image_base := PE_NOT_FOUND
  dos_hdr := 0
  nt_file_hdr := 0
  sec_hdr := 0
  isMzPeFound := false
  sec_count := 0
  is64bit := _is64bit

/-- Member function `ArtefactsMapping::foundAny`. -/
def ArtefactsMapping.foundAny (m : ArtefactsMapping) : Bool :=
  if m.sec_hdr ≠ 0 ∨ m.nt_file_hdr ≠ 0 then
    true
  else
    false

/-- Member function `ArtefactsMapping::getScore`: the local `score` is updated statement
by statement; it never exceeds 6, so the `size_t` additions do not wrap. -/
def ArtefactsMapping.getScore (m : ArtefactsMapping) : Nat :=
  let score := 0
  let score := if m.sec_hdr ≠ 0 then score + 3 else score
  let score := if m.nt_file_hdr ≠ 0 then score + 2 else score
  let score := if m.dos_hdr ≠ 0 then score + 1 else score
  score

/-- The comparison `ArtefactsMapping::operator <`. -/
def ArtefactsMapping.lt (m map2 : ArtefactsMapping) : Bool :=
  decide (m.getScore < map2.getScore)

/-- The assignment `ArtefactsMapping::operator =`: it copies every member but the
reference `memPage`; the result is the new value of the left operand. -/
def ArtefactsMapping.assign (self other : ArtefactsMapping) : ArtefactsMapping :=
  { self with
    pe_image_base := other.pe_image_base
    dos_hdr := other.dos_hdr
    nt_file_hdr := other.nt_file_hdr
    sec_hdr := other.sec_hdr
    sec_count := other.sec_count
    isMzPeFound := other.isMzPeFound
    is64bit := other.is64bit }

/-! ## `PeArtefacts::fieldsToJSON`

The stream `outs` is the list of the characters written to it so far. -/

/-- The double-quote character. -/
def quoteChar : Char := Char.ofNat 34

/-- The character of a digit value below 16, lower case as `std::hex` prints it. -/
def digitChar (d : Nat) : Char :=
  if d < 10 then Char.ofNat (48 + d) else Char.ofNat (87 + d)

/-- Digits of `n` in base `b`, most significant first, `fuel` bounding their number. -/
def renderDigits (b : Nat) : Nat → Nat → List Char
  | 0, _ => []
  | fuel + 1, n =>
    if n < b then [digitChar n] else renderDigits b fuel (n / b) ++ [digitChar (n % b)]

/-- The text `operator<<` inserts for an unsigned integer under `std::hex`. -/
def hexText (n : Nat) : List Char := renderDigits 16 (n + 1) n

/-- The text `operator<<` inserts for an unsigned integer under `std::dec`. -/
def decText (n : Nat) : List Char := renderDigits 10 (n + 1) n

/-- The text `operator<<` inserts for a `bool` (without `boolalpha`): `1` or `0`. -/
def boolText (b : Bool) : List Char := decText (if b then 1 else 0)

/-- Modelled from the spec: the macro `OUT_PADDED(stream, level, str)` is defined in a
header outside this unit.  It is taken to insert the padding of nesting level `level`
and then `str`; the padding text is the parameter `pad`. -/
def OUT_PADDED (pad : Nat → List Char) (outs : List Char) (level : Nat) (str : String) :
    List Char :=
  outs ++ pad level ++ str.toList

/-- Member function `PeArtefacts::fieldsToJSON`: the stream contents after the call, and the returned
flag.  `debug` tells whether `_DEBUG` is defined.  The stream is in its default
formatting state (no `showbase`, `uppercase`, `boolalpha` or field width). -/
def PeArtefacts.fieldsToJSON (t : Target) (debug : Bool) (pad : Nat → List Char)
    (a : PeArtefacts) (outs : List Char) (level : Nat) : List Char × Bool :=
  let outs := OUT_PADDED pad outs level "\"pe_base_offset\" : "
  let outs := outs ++ "\"".toList ++ hexText a.peBaseOffset ++ "\"".toList
  let outs :=
    if a.hasNtHdrs t then
      let outs := outs ++ ",\n".toList
      let outs := OUT_PADDED pad outs level "\"nt_file_hdr\" : "
      outs ++ "\"".toList ++ hexText a.ntFileHdrsOffset ++ "\"".toList
    else outs
  let outs := outs ++ ",\n".toList
  let outs := OUT_PADDED pad outs level "\"sections_hdrs\" : "
  let outs := outs ++ "\"".toList ++ hexText a.secHdrsOffset ++ "\"".toList
  let outs := outs ++ ",\n".toList
  let outs := OUT_PADDED pad outs level "\"sections_count\" : "
  let outs := outs ++ decText a.secCount
  let outs := outs ++ ",\n".toList
  let outs :=
    if debug then
      let outs := OUT_PADDED pad outs level "\"calculated_image_size\" : "
      let outs := outs ++ hexText a.calculatedImgSize
      outs ++ ",\n".toList
    else outs
  let outs := OUT_PADDED pad outs level "\"is_dll\" : "
  let outs := outs ++ boolText a.isDll
  let outs := outs ++ ",\n".toList
  let outs := OUT_PADDED pad outs level "\"is_64_bit\" : "
  let outs := outs ++ boolText a.is64bit
  (outs, true)

/-! ## Reading the emitted text back

A reader for the text `fieldsToJSON` emits: a sequence of `"key" : value` entries, a
value being a quoted string or a bare number (decimal, or hexadecimal as the entry of
the `_DEBUG` build is). -/

/-- A field value of the emitted text: a quoted string or a bare number. -/
inductive FieldValue where
  | quoted (s : List Char)
  | bare (s : List Char)
  deriving DecidableEq, Repr

/-- Value of a digit character, lower-case hexadecimal digits included. -/
def digitValue (c : Char) : Option Nat :=
  if 48 ≤ c.toNat ∧ c.toNat ≤ 57 then some (c.toNat - 48)
  else if 97 ≤ c.toNat ∧ c.toNat ≤ 102 then some (c.toNat - 87)
  else none

/-- One step of reading a number in base `b`: the value so far and the next digit. -/
def parseStep (b : Nat) (acc : Option Nat) (c : Char) : Option Nat :=
  match acc, digitValue c with
  | some v, some d => if d < b then some (v * b + d) else none
  | _, _ => none

/-- Reads a non-empty digit string in base `b`. -/
def parseNumber (b : Nat) (cs : List Char) : Option Nat :=
  if cs = [] then none else cs.foldl (parseStep b) (some 0)

/-- Drops everything up to and including the next double quote. -/
def skipToQuote : List Char → Option (List Char)
  | [] => none
  | c :: cs => if c = quoteChar then some cs else skipToQuote cs

/-- Splits at the next double quote: the text before it and the text after it. -/
def readQuoted : List Char → Option (List Char × List Char)
  | [] => none
  | c :: cs =>
    if c = quoteChar then some ([], cs)
    else match readQuoted cs with
      | some (s, rest) => some (c :: s, rest)
      | none => none

/-- Removes the prefix `pre`, if present. -/
def dropPrefix : List Char → List Char → Option (List Char)
  | [], cs => some cs
  | _ :: _, [] => none
  | p :: ps, c :: cs => if p = c then dropPrefix ps cs else none

/-- Tells whether the character is a digit of a number: `0`..`9` or `a`..`f`. -/
def isNumberChar (c : Char) : Bool := (digitValue c).isSome

/-- Reads one value: a quoted string, or a non-empty run of digits. -/
def readValue (cs : List Char) : Option (FieldValue × List Char) :=
  match cs with
  | [] => none
  | c :: rest =>
    if c = quoteChar then
      match readQuoted rest with
      | some (s, rest2) => some (FieldValue.quoted s, rest2)
      | none => none
    else if (c :: rest).takeWhile isNumberChar = [] then none
    else some (FieldValue.bare ((c :: rest).takeWhile isNumberChar),
               (c :: rest).dropWhile isNumberChar)

/-- Reads the `"key" : value` entries of a text, in order; `fuel` bounds their number. -/
def readFields : Nat → List Char → Option (List (List Char × FieldValue))
  | 0, _ => none
  | fuel + 1, cs =>
    match skipToQuote cs with
    | none => some []
    | some r1 =>
      match readQuoted r1 with
      | none => none
      | some (key, r2) =>
        match dropPrefix " : ".toList r2 with
        | none => none
        | some r3 =>
          match readValue r3 with
          | none => none
          | some (v, r4) => (readFields fuel r4).map (fun fs => (key, v) :: fs)

/-- Reads all entries of a text: an entry takes at least one character. -/
def parseFields (cs : List Char) : Option (List (List Char × FieldValue)) :=
  readFields (cs.length + 1) cs

/-- The keys of a text, in the order of their entries. -/
def fieldKeys (cs : List Char) : Option (List (List Char)) :=
  (parseFields cs).map (List.map Prod.fst)

/-- The value of the entry with the given key. -/
def fieldValue (key : List Char) (cs : List Char) : Option FieldValue :=
  (parseFields cs).bind (List.lookup key)

/-- A quoted value read as a hexadecimal number. -/
def hexField : FieldValue → Option Nat
  | .quoted s => parseNumber 16 s
  | .bare _ => none

/-- A bare value read as a decimal number. -/
def decField : FieldValue → Option Nat
  | .bare s => parseNumber 10 s
  | .quoted _ => none

/-- The key `pe_base_offset`. -/
def keyPeBaseOffset : List Char := "pe_base_offset".toList

/-- The key `nt_file_hdr`. -/
def keyNtFileHdr : List Char := "nt_file_hdr".toList

/-- The key `sections_hdrs`. -/
def keySectionsHdrs : List Char := "sections_hdrs".toList

/-- The key `sections_count`. -/
def keySectionsCount : List Char := "sections_count".toList

/-- The key `calculated_image_size`, emitted in the `_DEBUG` build only. -/
def keyCalculatedImageSize : List Char := "calculated_image_size".toList

/-- The key `is_dll`. -/
def keyIsDll : List Char := "is_dll".toList

/-- The key `is_64_bit`. -/
def keyIs64Bit : List Char := "is_64_bit".toList

/-- Reads `peBaseOffset`, `ntFileHdrsOffset`, `secHdrsOffset` and `secCount` back from an
emitted text: the three offsets from hexadecimal strings, an absent `nt_file_hdr` entry
meaning the sentinel, and the count from a decimal number. -/
def readOffsets (t : Target) (cs : List Char) : Option (Nat × Nat × Nat × Nat) :=
  match parseFields cs with
  | none => none
  | some fs =>
    match (fs.lookup keyPeBaseOffset).bind hexField,
          (match fs.lookup keyNtFileHdr with
           | none => some (invalidSize t)
           | some v => hexField v),
          (fs.lookup keySectionsHdrs).bind hexField,
          (fs.lookup keySectionsCount).bind decField with
    | some base, some nt, some sec, some count => some (base, nt, sec, count)
    | _, _, _, _ => none

/-- The separator between a key and its value. -/
def keySeparator : List Char := " : ".toList

/-- The separator between two entries, before the padding of the next one. -/
def fieldBreak : List Char := ",\n".toList

/-- The text after a bare number: the end of the text, or a character that is no digit
of a number. -/
def EndsNumber (r : List Char) : Prop :=
  ∀ c ∈ r.head?, isNumberChar c = false

/-- An entry with a quoted value, between the text `p` before it and `r` after it. -/
def quotedEntry (p key s r : List Char) : List Char :=
  p ++ quoteChar :: (key ++ quoteChar :: (keySeparator ++ quoteChar :: (s ++ quoteChar :: r)))

/-- An entry with a bare value, between the text `p` before it and `r` after it. -/
def bareEntry (p key d r : List Char) : List Char :=
  p ++ quoteChar :: (key ++ quoteChar :: (keySeparator ++ (d ++ r)))

/-- Padding by blanks, one per nesting level. -/
def blanks (level : Nat) : List Char := List.replicate level ' '

/-! ## Assignment in place and selection of the better mapping -/

/-- The statement `a = b` for the mapping objects at the addresses `pa` and `pb` of a
store of objects: the object at `pa` receives the value `operator =` gives it; the
right operand is a reference to `const` and no other object is written. -/
def ArtefactsMapping.assignAt (store : Nat → ArtefactsMapping) (pa pb : Nat) :
    Nat → ArtefactsMapping :=
  fun p => if p = pa then (store pa).assign (store pb) else store p

/-- Modelled from the spec: the step that picks between the current candidate mapping
and another one belongs to the scanner's implementation file, which is not part of this
header.  It is a max-selection by `operator <`: the candidate replaces the current
mapping only when `current < candidate`. -/
def selectMax (current candidate : ArtefactsMapping) : ArtefactsMapping :=
  if current.lt candidate = true then candidate else current

/-! ## Concrete values used in the examples -/

/-- The base constructor used in the concrete examples: it stores its four arguments
and clears the remaining members. -/
def plainBase : BaseCtor := fun h m sz st =>
  { processHandle := h, module := m, moduleSize := sz, status := st,
    is_executable := false, protection := 0, has_pe := false, has_shellcode := false }

/-- A record with the stub header at offset `0x40` of its region, the NT file header at
`0x104`, three sections from `0x1f8`. -/
def sampleArtefacts : PeArtefacts where
  regionStart := 0x7ff600000000
  peBaseOffset := 0x40
  ntFileHdrsOffset := 0x104
  secHdrsOffset := 0x1f8
  secCount := 3
  calculatedImgSize := 0x5000
  isMzPeFound := true
  isDll := false
  is64bit := true

/-- A record for a region in which a section table was found but no stub header:
`peBaseOffset` is still the sentinel of the x64 build. -/
def wrappingArtefacts : PeArtefacts where
  regionStart := 0x20000
  peBaseOffset := invalidSize .x64
  ntFileHdrsOffset := invalidSize .x64
  secHdrsOffset := 0x1f8
  secCount := 2
  calculatedImgSize := 0x2000
  isMzPeFound := false
  isDll := true
  is64bit := true

/-- A candidate mapping in which only a section table was located. -/
def sectionsMapping : ArtefactsMapping :=
  { ArtefactsMapping.new 0x5000 true with sec_hdr := 0x61f8, sec_count := 3 }

/-- A candidate mapping in which only the NT file header was located. -/
def ntOnlyMapping : ArtefactsMapping :=
  { ArtefactsMapping.new 0x5000 true with nt_file_hdr := 0x6104 }

/-- A candidate mapping in which the stub header and the NT file header were located,
bound to another page than `sectionsMapping`. -/
def ntStubMapping : ArtefactsMapping :=
  { ArtefactsMapping.new 0x4000 false with
    dos_hdr := 0x4f00, nt_file_hdr := 0x4fc0, pe_image_base := 0x4f00, isMzPeFound := true }

/-- A store holding `sectionsMapping` at address `0x100`, `ntStubMapping` elsewhere. -/
def sampleStore : Nat → ArtefactsMapping :=
  fun p => if p = 0x100 then sectionsMapping else ntStubMapping

/-- A record whose `calculatedImgSize` prints with a leading letter, `a000`. -/
def largeImageArtefacts : PeArtefacts :=
  { sampleArtefacts with calculatedImgSize := 0xa000 }

/-! # Theorems -/

/-! ## Facts about the sentinels -/

theorem invalidU64_eq : invalidU64 = 2 ^ 64 - 1 := by
  unfold invalidU64 toUnsigned INVALID_OFFSET; rfl

theorem invalidSize_eq (t : Target) : invalidSize t = 2 ^ t.sizeBits - 1 := by
  cases t <;> rfl

theorem invalidSize_x64 : invalidSize .x64 = 18446744073709551615 := by
  rw [invalidSize_eq]; norm_num [Target.sizeBits]

theorem invalidSize_x86 : invalidSize .x86 = 4294967295 := by
  rw [invalidSize_eq]; norm_num [Target.sizeBits]

theorem invalidU64_val : invalidU64 = 18446744073709551615 := by
  rw [invalidU64_eq]; norm_num

/-! ## `PeArtefacts::dropPeBase` -/

theorem plainBase_storesSize : plainBase.StoresSize := fun _ _ _ _ => rfl

theorem sub_u64_of_le {x p : Nat} (hx : x < 2 ^ 64) (hp : p ≤ x) :
    (x + 2 ^ 64 - p) % 2 ^ 64 = x - p := by
  have h : x + 2 ^ 64 - p = (x - p) + 2 ^ 64 := by omega
  rw [h, Nat.add_mod_right]
  exact Nat.mod_eq_of_lt (by omega)

/-- C1 (as stated, refuted): with `peBaseOffset = 0x40` and `x` the 64-bit sentinel,
neither `x < peBaseOffset` nor `peBaseOffset` is the sentinel, yet `dropPeBase` returns
the sentinel and not `x - peBaseOffset`. -/
theorem dropPeBase_sentinel_argument_counterexample :
    ¬ (invalidU64 < sampleArtefacts.peBaseOffset) ∧
    sampleArtefacts.peBaseOffset ≠ invalidSize .x64 ∧
    IsU64 invalidU64 ∧
    sampleArtefacts.dropPeBase .x64 invalidU64 = invalidU64 ∧
    sampleArtefacts.dropPeBase .x64 invalidU64 ≠ invalidU64 - sampleArtefacts.peBaseOffset := by
  decide

/-- C1 (amended): `dropPeBase x` returns the 64-bit sentinel if `x < peBaseOffset`, or
`peBaseOffset` is the sentinel, or `x` is the sentinel; in every other case it returns
exactly `x - peBaseOffset`. -/
theorem dropPeBase_eq (t : Target) (a : PeArtefacts) (x : Nat) (hx : IsU64 x) :
    a.dropPeBase t x =
      if x < a.peBaseOffset ∨ a.peBaseOffset = invalidSize t ∨ x = invalidU64 then invalidU64
      else x - a.peBaseOffset := by
  unfold PeArtefacts.dropPeBase
  by_cases h1 : a.peBaseOffset = invalidSize t ∨ x = invalidU64
  · have h2 : x < a.peBaseOffset ∨ a.peBaseOffset = invalidSize t ∨ x = invalidU64 := Or.inr h1
    rw [if_pos h1, if_pos h2]
  · rw [if_neg h1]
    by_cases h3 : x < a.peBaseOffset
    · rw [if_pos h3, if_pos (Or.inl h3)]
    · have h4 : ¬ (x < a.peBaseOffset ∨ a.peBaseOffset = invalidSize t ∨ x = invalidU64) := by
        rintro (h | h)
        · exact h3 h
        · exact h1 h
      rw [if_neg h3, if_neg h4]
      exact sub_u64_of_le hx (Nat.le_of_not_lt h3)

theorem dropPeBase_eq_witness :
    IsU64 0x1f8 ∧ sampleArtefacts.dropPeBase .x64 0x1f8 = 0x1b8 :=
  ⟨by decide, (dropPeBase_eq .x64 sampleArtefacts 0x1f8 (by decide)).trans (by decide)⟩

/-- C2: `dropPeBase x` returns the 64-bit sentinel whenever `peBaseOffset` is the
sentinel, or `x` is the sentinel, or `x < peBaseOffset`. -/
theorem dropPeBase_fails (t : Target) (a : PeArtefacts) (x : Nat)
    (h : a.peBaseOffset = invalidSize t ∨ x = invalidU64 ∨ x < a.peBaseOffset) :
    a.dropPeBase t x = invalidU64 := by
  unfold PeArtefacts.dropPeBase
  rcases h with h | h | h
  · rw [if_pos (Or.inl h)]
  · rw [if_pos (Or.inr h)]
  · split_ifs <;> rfl

theorem dropPeBase_fails_witness :
    (PeArtefacts.new .x86).dropPeBase .x86 0x1f8 = invalidU64 ∧
    sampleArtefacts.dropPeBase .x64 invalidU64 = invalidU64 ∧
    sampleArtefacts.dropPeBase .x64 0x3f = invalidU64 :=
  ⟨dropPeBase_fails .x86 (PeArtefacts.new .x86) 0x1f8 (Or.inl rfl),
   dropPeBase_fails .x64 sampleArtefacts invalidU64 (Or.inr (Or.inl rfl)),
   dropPeBase_fails .x64 sampleArtefacts 0x3f (Or.inr (Or.inr (by decide)))⟩

/-! ## `ArtefactScanReport::ArtefactScanReport` -/

theorem new_moduleSize (t : Target) (base : BaseCtor) (h m sz : Nat) (st : t_scan_status)
    (peArt : PeArtefacts) :
    (ArtefactScanReport.new t base h m sz st peArt).moduleSize =
      max (base h m sz st).moduleSize
        ((peArt.calculatedImgSize + peArt.peBaseOffset) % 2 ^ t.sizeBits) := by
  unfold ArtefactScanReport.new
  dsimp only
  split_ifs with hgt
  · exact (max_eq_right (Nat.le_of_lt hgt)).symm
  · exact (max_eq_left (Nat.le_of_not_lt hgt)).symm

/-- C3 (as stated, refuted): in the x64 build, for a record without stub header
(`peBaseOffset` the sentinel) and `calculatedImgSize = 0x2000`, constructed over a region
of `0x1000` bytes, the `size_t` sum wraps to `0x1fff`; the module size is `0x1fff` and not
the maximum of `0x1000` and the sum `0x2000 + peBaseOffset`. -/
theorem new_moduleSize_wrap_counterexample :
    plainBase.StoresSize ∧
    (wrappingArtefacts).WellTyped .x64 ∧
    (ArtefactScanReport.new .x64 plainBase 0x1c4 0x20000 0x1000 1 wrappingArtefacts).initialRegionSize
      = 0x1000 ∧
    (ArtefactScanReport.new .x64 plainBase 0x1c4 0x20000 0x1000 1 wrappingArtefacts).moduleSize
      = 0x1fff ∧
    (ArtefactScanReport.new .x64 plainBase 0x1c4 0x20000 0x1000 1 wrappingArtefacts).moduleSize
      ≠ max 0x1000 (wrappingArtefacts.calculatedImgSize + wrappingArtefacts.peBaseOffset) := by
  refine ⟨fun _ _ _ _ => rfl, by decide, by decide, by decide, by decide⟩

/-- C3 (amended): when the base constructor stores the supplied size unchanged, the
module size of the constructed report equals
`max(initialRegionSize, (calculatedImgSize + peBaseOffset) mod 2^w)`, `w` being the width
of `size_t`; it equals `max(initialRegionSize, calculatedImgSize + peBaseOffset)` whenever
that sum fits a `size_t`. -/
theorem new_moduleSize_eq_max (t : Target) (base : BaseCtor) (hbase : base.StoresSize)
    (h m sz : Nat) (st : t_scan_status) (peArt : PeArtefacts) :
    (ArtefactScanReport.new t base h m sz st peArt).moduleSize =
        max (ArtefactScanReport.new t base h m sz st peArt).initialRegionSize
          ((peArt.calculatedImgSize + peArt.peBaseOffset) % 2 ^ t.sizeBits) ∧
    (ArtefactScanReport.new t base h m sz st peArt).initialRegionSize = sz ∧
    (IsSizeT t (peArt.calculatedImgSize + peArt.peBaseOffset) →
      (ArtefactScanReport.new t base h m sz st peArt).moduleSize =
        max sz (peArt.calculatedImgSize + peArt.peBaseOffset)) := by
  have hsz : (ArtefactScanReport.new t base h m sz st peArt).initialRegionSize = sz := rfl
  have hmax := new_moduleSize t base h m sz st peArt
  rw [hbase h m sz st] at hmax
  refine ⟨by rw [hsz]; exact hmax, hsz, fun hfit => ?_⟩
  rw [hmax, Nat.mod_eq_of_lt hfit]

theorem new_moduleSize_eq_max_witness :
    plainBase.StoresSize ∧
    (ArtefactScanReport.new .x64 plainBase 0x1c4 0x20000 0x1000 1 sampleArtefacts).moduleSize
      = 0x5040 ∧
    (ArtefactScanReport.new .x64 plainBase 0x1c4 0x20000 0x1000 1 sampleArtefacts).initialRegionSize
      = 0x1000 :=
  ⟨plainBase_storesSize,
   ((new_moduleSize_eq_max .x64 plainBase plainBase_storesSize 0x1c4 0x20000 0x1000 1
      sampleArtefacts).2.2 (by decide)).trans (by decide),
   (new_moduleSize_eq_max .x64 plainBase plainBase_storesSize 0x1c4 0x20000 0x1000 1
      sampleArtefacts).2.1⟩

/-! ## `ArtefactsMapping`: score, comparison, `foundAny` -/

theorem getScore_sum (m : ArtefactsMapping) :
    m.getScore =
      (if m.sec_hdr ≠ 0 then 3 else 0) + (if m.nt_file_hdr ≠ 0 then 2 else 0) +
        (if m.dos_hdr ≠ 0 then 1 else 0) := by
  unfold ArtefactsMapping.getScore
  split_ifs <;> rfl

/-- C4: `getScore()` is 3 if the section headers were found, plus 2 if the NT header was
found, plus 1 if the stub header was found; replacing the section count, the image base,
`isMzPeFound` and `is64bit` by any other values leaves the score unchanged. -/
theorem getScore_weights (m : ArtefactsMapping) :
    m.getScore =
      (if m.sec_hdr ≠ 0 then 3 else 0) + (if m.nt_file_hdr ≠ 0 then 2 else 0) +
        (if m.dos_hdr ≠ 0 then 1 else 0) ∧
    ∀ (count base : Nat) (mzpe b64 : Bool),
      ({ m with sec_count := count, pe_image_base := base, isMzPeFound := mzpe,
                is64bit := b64 } : ArtefactsMapping).getScore = m.getScore :=
  ⟨getScore_sum m, fun _ _ _ _ => rfl⟩

/-- C5: a mapping `s` with section headers and a mapping `n` in which only the NT header
was found: `n < s` holds and `s < n` does not. -/
theorem lt_ntOnly_sections (s n : ArtefactsMapping) (hs : s.sec_hdr ≠ 0)
    (hn : n.nt_file_hdr ≠ 0 ∧ n.sec_hdr = 0 ∧ n.dos_hdr = 0) :
    n.lt s = true ∧ s.lt n = false := by
  obtain ⟨hnt, hsec, hdos⟩ := hn
  have hscore_n : n.getScore = 2 := by
    rw [getScore_sum, if_neg (not_not.mpr hsec), if_pos hnt, if_neg (not_not.mpr hdos)]
  have hscore_s : 3 ≤ s.getScore := by
    rw [getScore_sum, if_pos hs]
    omega
  unfold ArtefactsMapping.lt
  rw [hscore_n]
  constructor
  · exact decide_eq_true (by omega)
  · exact decide_eq_false (by omega)

theorem lt_ntOnly_sections_witness :
    sectionsMapping.sec_hdr ≠ 0 ∧
    (ntOnlyMapping.nt_file_hdr ≠ 0 ∧ ntOnlyMapping.sec_hdr = 0 ∧ ntOnlyMapping.dos_hdr = 0) ∧
    ntOnlyMapping.lt sectionsMapping = true ∧ sectionsMapping.lt ntOnlyMapping = false :=
  ⟨by decide, by decide,
   lt_ntOnly_sections sectionsMapping ntOnlyMapping (by decide) (by decide)⟩

/-- C6: `foundAny()` is true iff the NT header or the section headers were found; a
mapping whose NT-header and section-header pointers are null has `foundAny()` false
whatever its stub-header pointer is. -/
theorem foundAny_iff (m : ArtefactsMapping) :
    (m.foundAny = true ↔ (m.nt_file_hdr ≠ 0 ∨ m.sec_hdr ≠ 0)) ∧
    ∀ stub : Nat, ({ m with dos_hdr := stub, nt_file_hdr := 0, sec_hdr := 0 } :
      ArtefactsMapping).foundAny = false := by
  refine ⟨?_, fun _ => rfl⟩
  unfold ArtefactsMapping.foundAny
  split_ifs with h
  · simp only [true_iff]
    exact h.symm
  · simp only [Bool.false_eq_true, false_iff]
    exact fun h2 => h h2.symm

/-! ## `PeArtefacts`: header flags and image base -/

/-- C7: `hasNtHdrs()` is true iff `ntFileHdrsOffset` is not the sentinel, and
`hasSectionHdrs()` is true iff `secHdrsOffset` is not the sentinel. -/
theorem hasHdrs_iff (t : Target) (a : PeArtefacts) :
    (a.hasNtHdrs t = true ↔ a.ntFileHdrsOffset ≠ invalidSize t) ∧
    (a.hasSectionHdrs t = true ↔ a.secHdrsOffset ≠ invalidSize t) := by
  unfold PeArtefacts.hasNtHdrs PeArtefacts.hasSectionHdrs
  exact ⟨bne_iff_ne, bne_iff_ne⟩

theorem toUnsigned_add_natCast (p : Nat) (r : Int) :
    (p + toUnsigned 64 r) % 2 ^ 64 = toUnsigned 64 ((p : Int) + r) := by
  unfold toUnsigned
  omega

/-- C10: `peImageBase()` is `regionStart + peBaseOffset` as an unsigned 64-bit value:
the sum modulo `2^64`, which is also the unsigned sum of `peBaseOffset` and `regionStart`
reinterpreted as unsigned; when `peBaseOffset` is not the sentinel, `regionStart` is
non-negative and `regionStart + peBaseOffset < 2^64`, it is the exact sum. -/
theorem peImageBase_eq (t : Target) (a : PeArtefacts) :
    a.peImageBase t = toUnsigned 64 (a.regionStart + a.peBaseOffset) ∧
    a.peImageBase t = (toUnsigned 64 a.regionStart + a.peBaseOffset) % 2 ^ 64 ∧
    (a.peBaseOffset ≠ invalidSize t → 0 ≤ a.regionStart →
      a.regionStart + a.peBaseOffset < 2 ^ 64 →
      (a.peImageBase t : Int) = a.regionStart + a.peBaseOffset) := by
  have hx86 : a.peImageBase t = toUnsigned 64 (a.regionStart + a.peBaseOffset) := by
    cases t
    · show toUnsigned 64 ((a.peBaseOffset : Int) + a.regionStart) = _
      rw [add_comm]
    · show (a.peBaseOffset + toUnsigned 64 a.regionStart) % 2 ^ 64 = _
      rw [toUnsigned_add_natCast, add_comm]
  refine ⟨hx86, ?_, fun _ hnn hlt => ?_⟩
  · rw [hx86, Nat.add_comm, toUnsigned_add_natCast, add_comm]
  · rw [hx86]
    unfold toUnsigned
    have hsum : 0 ≤ a.regionStart + a.peBaseOffset := by omega
    rw [Int.emod_eq_of_lt hsum hlt, Int.toNat_of_nonneg hsum]

theorem peImageBase_eq_witness :
    sampleArtefacts.peBaseOffset ≠ invalidSize .x64 ∧ 0 ≤ sampleArtefacts.regionStart ∧
    sampleArtefacts.regionStart + sampleArtefacts.peBaseOffset < 2 ^ 64 ∧
    (sampleArtefacts.peImageBase .x64 : Int) = 0x7ff600000040 :=
  ⟨by decide, by decide, by decide,
   ((peImageBase_eq .x64 sampleArtefacts).2.2 (by decide) (by decide) (by decide)).trans
     (by decide)⟩

/-! ## Digits and the reader -/

theorem digitChar_ne_quote : ∀ d, d < 16 → digitChar d ≠ quoteChar := by decide

theorem digitChar_isNumberChar : ∀ d, d < 16 → isNumberChar (digitChar d) = true := by decide

theorem digitValue_digitChar : ∀ d, d < 16 → digitValue (digitChar d) = some d := by decide

theorem renderDigits_ne_nil (b fuel n : Nat) : renderDigits b (fuel + 1) n ≠ [] := by
  unfold renderDigits
  split_ifs <;> simp

theorem renderDigits_forall (P : Char → Prop) (b : Nat) (hP : ∀ d, d < b → P (digitChar d))
    (hb : 0 < b) (fuel n : Nat) : ∀ c ∈ renderDigits b fuel n, P c := by
  induction fuel generalizing n with
  | zero => intro c hc; simp [renderDigits] at hc
  | succ k ih =>
    intro c hc
    unfold renderDigits at hc
    split_ifs at hc with hlt
    · rw [List.mem_singleton] at hc
      exact hc ▸ hP n hlt
    · rcases List.mem_append.mp hc with h | h
      · exact ih _ c h
      · rw [List.mem_singleton] at h
        exact h ▸ hP _ (Nat.mod_lt _ hb)

theorem foldl_parseStep_append (b : Nat) (acc : Option Nat) (xs : List Char) (c : Char) :
    (xs ++ [c]).foldl (parseStep b) acc = parseStep b (xs.foldl (parseStep b) acc) c := by
  rw [List.foldl_append]; rfl

theorem parseNumber_renderDigits (b : Nat) (hb2 : 2 ≤ b) (hb16 : b ≤ 16) (fuel n : Nat)
    (hfuel : n < fuel) : parseNumber b (renderDigits b fuel n) = some n := by
  induction fuel generalizing n with
  | zero => omega
  | succ k ih =>
    have hne := renderDigits_ne_nil b k n
    unfold parseNumber
    rw [if_neg hne]
    unfold renderDigits
    split_ifs with hlt
    · simp only [List.foldl_cons, List.foldl_nil, parseStep]
      rw [digitValue_digitChar n (by omega)]
      simp [hlt]
    · have hdiv : n / b < k := by
        have : n / b < n := Nat.div_lt_self (by omega) (by omega)
        omega
      have hrec := ih (n / b) hdiv
      unfold parseNumber at hrec
      have hne2 : renderDigits b k (n / b) ≠ [] := by
        cases k with
        | zero => omega
        | succ j => exact renderDigits_ne_nil b j _
      rw [if_neg hne2] at hrec
      rw [foldl_parseStep_append, hrec]
      simp only [parseStep]
      rw [digitValue_digitChar _ (by have := Nat.mod_lt n (show 0 < b by omega); omega)]
      simp only [Nat.mod_lt n (show 0 < b by omega), if_true]
      rw [Nat.mul_comm, Nat.div_add_mod]

theorem parseNumber_hexText (n : Nat) : parseNumber 16 (hexText n) = some n :=
  parseNumber_renderDigits 16 (by decide) (by decide) _ n (Nat.lt_succ_self n)

theorem parseNumber_decText (n : Nat) : parseNumber 10 (decText n) = some n :=
  parseNumber_renderDigits 10 (by decide) (by decide) _ n (Nat.lt_succ_self n)

theorem skipToQuote_append (p r : List Char) (hp : quoteChar ∉ p) :
    skipToQuote (p ++ quoteChar :: r) = some r := by
  induction p with
  | nil => simp [skipToQuote]
  | cons c cs ih =>
    have hc : c ≠ quoteChar := fun h => hp (h ▸ List.mem_cons_self _ _)
    have hcs : quoteChar ∉ cs := fun h => hp (List.mem_cons_of_mem _ h)
    rw [List.cons_append, skipToQuote, if_neg hc]
    exact ih hcs

theorem readQuoted_append (s r : List Char) (hs : quoteChar ∉ s) :
    readQuoted (s ++ quoteChar :: r) = some (s, r) := by
  induction s with
  | nil => simp [readQuoted]
  | cons c cs ih =>
    have hc : c ≠ quoteChar := fun h => hs (h ▸ List.mem_cons_self _ _)
    have hcs : quoteChar ∉ cs := fun h => hs (List.mem_cons_of_mem _ h)
    rw [List.cons_append, readQuoted, if_neg hc, ih hcs]

theorem dropPrefix_append (p r : List Char) : dropPrefix p (p ++ r) = some r := by
  induction p with
  | nil => cases r <;> rfl
  | cons c cs ih => rw [List.cons_append, dropPrefix, if_pos rfl, ih]

theorem readValue_quoted (s r : List Char) (hs : quoteChar ∉ s) :
    readValue (quoteChar :: (s ++ quoteChar :: r)) = some (FieldValue.quoted s, r) := by
  simp only [readValue, if_true, readQuoted_append s r hs]

theorem takeWhile_digits (d r : List Char) (hd : ∀ c ∈ d, isNumberChar c = true)
    (hr : EndsNumber r) : (d ++ r).takeWhile isNumberChar = d := by
  induction d with
  | nil =>
    cases r with
    | nil => rfl
    | cons c cs =>
      have : isNumberChar c = false := hr c (by simp)
      simp [List.takeWhile, this]
  | cons c cs ih =>
    have hc : isNumberChar c = true := hd c (List.mem_cons_self _ _)
    rw [List.cons_append, List.takeWhile, hc]
    simp only
    rw [ih (fun x hx => hd x (List.mem_cons_of_mem _ hx))]

theorem dropWhile_digits (d r : List Char) (hd : ∀ c ∈ d, isNumberChar c = true)
    (hr : EndsNumber r) : (d ++ r).dropWhile isNumberChar = r := by
  induction d with
  | nil =>
    cases r with
    | nil => rfl
    | cons c cs =>
      have : isNumberChar c = false := hr c (by simp)
      simp [List.dropWhile, this]
  | cons c cs ih =>
    have hc : isNumberChar c = true := hd c (List.mem_cons_self _ _)
    rw [List.cons_append, List.dropWhile, hc]
    exact ih (fun x hx => hd x (List.mem_cons_of_mem _ hx))

theorem isDigit_ne_quote (c : Char) (h : isNumberChar c = true) : c ≠ quoteChar := by
  rintro rfl
  exact absurd h (by decide)

theorem readValue_bare (d r : List Char) (hne : d ≠ []) (hd : ∀ c ∈ d, isNumberChar c = true)
    (hr : EndsNumber r) : readValue (d ++ r) = some (FieldValue.bare d, r) := by
  cases d with
  | nil => exact absurd rfl hne
  | cons c cs =>
    have hc : c ≠ quoteChar := isDigit_ne_quote c (hd c (List.mem_cons_self _ _))
    have htake := takeWhile_digits (c :: cs) r hd hr
    have hdrop := dropWhile_digits (c :: cs) r hd hr
    rw [List.cons_append] at htake hdrop ⊢
    simp only [readValue, if_neg hc, htake, hdrop]
    simp

theorem readFields_quoted (fuel : Nat) (p key s r : List Char) (hp : quoteChar ∉ p)
    (hk : quoteChar ∉ key) (hs : quoteChar ∉ s) :
    readFields (fuel + 1)
        (p ++ quoteChar :: (key ++ quoteChar :: (keySeparator ++ quoteChar :: (s ++ quoteChar :: r)))) =
      (readFields fuel r).map (fun fs => (key, FieldValue.quoted s) :: fs) := by
  rw [readFields, skipToQuote_append p _ hp]
  simp only [readQuoted_append key _ hk]
  have hsep := dropPrefix_append keySeparator (quoteChar :: (s ++ quoteChar :: r))
  unfold keySeparator at hsep ⊢
  simp only [hsep, readValue_quoted s r hs]

theorem readFields_bare (fuel : Nat) (p key d r : List Char) (hp : quoteChar ∉ p)
    (hk : quoteChar ∉ key) (hne : d ≠ []) (hd : ∀ c ∈ d, isNumberChar c = true)
    (hr : EndsNumber r) :
    readFields (fuel + 1) (p ++ quoteChar :: (key ++ quoteChar :: (keySeparator ++ (d ++ r)))) =
      (readFields fuel r).map (fun fs => (key, FieldValue.bare d) :: fs) := by
  rw [readFields, skipToQuote_append p _ hp]
  simp only [readQuoted_append key _ hk]
  have hsep := dropPrefix_append keySeparator (d ++ r)
  unfold keySeparator at hsep ⊢
  simp only [hsep, readValue_bare d r hne hd hr]

theorem readFields_nil (fuel : Nat) : readFields (fuel + 1) [] = some [] := by
  simp [readFields, skipToQuote]


/-! ## The text emitted by `fieldsToJSON` -/

theorem text_quote : "\"".toList = [quoteChar] := by decide

theorem text_break : ",\n".toList = fieldBreak := rfl

theorem text_pe_base_offset :
    "\"pe_base_offset\" : ".toList = quoteChar :: (keyPeBaseOffset ++ quoteChar :: keySeparator) := by
  decide

theorem text_nt_file_hdr :
    "\"nt_file_hdr\" : ".toList = quoteChar :: (keyNtFileHdr ++ quoteChar :: keySeparator) := by
  decide

theorem text_sections_hdrs :
    "\"sections_hdrs\" : ".toList = quoteChar :: (keySectionsHdrs ++ quoteChar :: keySeparator) := by
  decide

theorem text_sections_count :
    "\"sections_count\" : ".toList = quoteChar :: (keySectionsCount ++ quoteChar :: keySeparator) := by
  decide

theorem text_is_dll :
    "\"is_dll\" : ".toList = quoteChar :: (keyIsDll ++ quoteChar :: keySeparator) := by
  decide

theorem text_is_64_bit :
    "\"is_64_bit\" : ".toList = quoteChar :: (keyIs64Bit ++ quoteChar :: keySeparator) := by
  decide

/-- The text of the entries after `pe_base_offset` and the optional `nt_file_hdr`. -/
theorem fieldsToJSON_text (t : Target) (pad : Nat → List Char) (a : PeArtefacts)
    (outs : List Char) (level : Nat) :
    (a.fieldsToJSON t false pad outs level).1 =
      outs ++ quotedEntry (pad level) keyPeBaseOffset (hexText a.peBaseOffset)
        ((if a.hasNtHdrs t = true then
            quotedEntry (fieldBreak ++ pad level) keyNtFileHdr (hexText a.ntFileHdrsOffset)
          else id)
          (quotedEntry (fieldBreak ++ pad level) keySectionsHdrs (hexText a.secHdrsOffset)
            (bareEntry (fieldBreak ++ pad level) keySectionsCount (decText a.secCount)
              (bareEntry (fieldBreak ++ pad level) keyIsDll (boolText a.isDll)
                (bareEntry (fieldBreak ++ pad level) keyIs64Bit (boolText a.is64bit) []))))) := by
  unfold PeArtefacts.fieldsToJSON OUT_PADDED quotedEntry bareEntry
  rw [text_quote, text_break, text_pe_base_offset, text_nt_file_hdr, text_sections_hdrs,
    text_sections_count, text_is_dll, text_is_64_bit]
  by_cases hnt : a.hasNtHdrs t = true
  · simp only [hnt, if_true, Bool.false_eq_true, if_false, List.append_assoc, List.cons_append,
      List.nil_append, List.append_nil]
  · simp only [hnt, if_false, Bool.false_eq_true, List.append_assoc, List.cons_append,
      List.nil_append, List.append_nil, id]

theorem quote_not_mem_hexText (n : Nat) : quoteChar ∉ hexText n := fun h =>
  renderDigits_forall (fun c => c ≠ quoteChar) 16 digitChar_ne_quote (by decide) _ n _ h rfl

theorem decText_isDigit (n : Nat) : ∀ c ∈ decText n, isNumberChar c = true :=
  renderDigits_forall (fun c => isNumberChar c = true) 10
    (fun d hd => digitChar_isNumberChar d (by omega)) (by decide) _ n

theorem hexText_isDigit (n : Nat) : ∀ c ∈ hexText n, isNumberChar c = true :=
  renderDigits_forall (fun c => isNumberChar c = true) 16 digitChar_isNumberChar (by decide) _ n

theorem hexText_ne_nil (n : Nat) : hexText n ≠ [] := renderDigits_ne_nil 16 n n

theorem decText_ne_nil (n : Nat) : decText n ≠ [] := renderDigits_ne_nil 10 n n

theorem boolText_isDigit (b : Bool) : ∀ c ∈ boolText b, isNumberChar c = true := decText_isDigit _

theorem boolText_ne_nil (b : Bool) : boolText b ≠ [] := decText_ne_nil _

theorem quote_not_mem_break (p : List Char) (hp : quoteChar ∉ p) :
    quoteChar ∉ fieldBreak ++ p := by
  intro h
  rcases List.mem_append.mp h with h1 | h1
  · exact absurd h1 (by decide)
  · exact hp h1

theorem endsNumber_nil : EndsNumber [] := by
  intro c hc
  simp at hc

theorem endsNumber_break (r : List Char) : EndsNumber (fieldBreak ++ r) := by
  intro c hc
  have hc2 : c = ',' := by
    simpa [fieldBreak] using hc.symm
  rw [hc2]
  decide

theorem endsNumber_bareEntry (p key d r : List Char) :
    EndsNumber (bareEntry (fieldBreak ++ p) key d r) := by
  unfold bareEntry
  rw [List.append_assoc]
  exact endsNumber_break _

theorem readFields_quotedEntry (fuel : Nat) (p key s r : List Char) (hp : quoteChar ∉ p)
    (hk : quoteChar ∉ key) (hs : quoteChar ∉ s) :
    readFields (fuel + 1) (quotedEntry p key s r) =
      (readFields fuel r).map (fun fs => (key, FieldValue.quoted s) :: fs) :=
  readFields_quoted fuel p key s r hp hk hs

theorem readFields_bareEntry (fuel : Nat) (p key d r : List Char) (hp : quoteChar ∉ p)
    (hk : quoteChar ∉ key) (hne : d ≠ []) (hd : ∀ c ∈ d, isNumberChar c = true)
    (hr : EndsNumber r) :
    readFields (fuel + 1) (bareEntry p key d r) =
      (readFields fuel r).map (fun fs => (key, FieldValue.bare d) :: fs) :=
  readFields_bare fuel p key d r hp hk hne hd hr

theorem quotedEntry_length (p key s r : List Char) : 6 ≤ (quotedEntry p key s r).length := by
  have hsep : keySeparator.length = 3 := rfl
  unfold quotedEntry
  simp only [List.length_append, List.length_cons, hsep]
  omega

theorem fuel_split (n : Nat) (h : 6 ≤ n) : ∃ m, n + 1 = m + 7 := ⟨n - 6, by omega⟩

/-- The entries from `sections_hdrs` on, read with enough fuel. -/
theorem readFields_tail (m : Nat) (p : List Char) (hp : quoteChar ∉ p) (sec count : Nat)
    (dll b64 : Bool) :
    readFields (m + 5)
        (quotedEntry (fieldBreak ++ p) keySectionsHdrs (hexText sec)
          (bareEntry (fieldBreak ++ p) keySectionsCount (decText count)
            (bareEntry (fieldBreak ++ p) keyIsDll (boolText dll)
              (bareEntry (fieldBreak ++ p) keyIs64Bit (boolText b64) [])))) =
      some [(keySectionsHdrs, FieldValue.quoted (hexText sec)),
            (keySectionsCount, FieldValue.bare (decText count)),
            (keyIsDll, FieldValue.bare (boolText dll)),
            (keyIs64Bit, FieldValue.bare (boolText b64))] := by
  have hbp := quote_not_mem_break p hp
  rw [readFields_quotedEntry (m + 4) _ _ _ _ hbp (by decide) (quote_not_mem_hexText sec),
    readFields_bareEntry (m + 3) _ _ _ _ hbp (by decide) (decText_ne_nil count)
      (decText_isDigit count) (endsNumber_bareEntry _ _ _ _),
    readFields_bareEntry (m + 2) _ _ _ _ hbp (by decide) (boolText_ne_nil dll)
      (boolText_isDigit dll) (endsNumber_bareEntry _ _ _ _),
    readFields_bareEntry (m + 1) _ _ _ _ hbp (by decide) (boolText_ne_nil b64)
      (boolText_isDigit b64) endsNumber_nil,
    readFields_nil m]
  rfl

/-- The reader recovers every entry of the emitted text. -/
theorem parseFields_fieldsToJSON (t : Target) (pad : Nat → List Char) (a : PeArtefacts)
    (level : Nat) (hpad : quoteChar ∉ pad level) :
    parseFields (a.fieldsToJSON t false pad [] level).1 =
      some ((keyPeBaseOffset, FieldValue.quoted (hexText a.peBaseOffset)) ::
        ((if a.hasNtHdrs t = true then
            [(keyNtFileHdr, FieldValue.quoted (hexText a.ntFileHdrsOffset))]
          else []) ++
          [(keySectionsHdrs, FieldValue.quoted (hexText a.secHdrsOffset)),
           (keySectionsCount, FieldValue.bare (decText a.secCount)),
           (keyIsDll, FieldValue.bare (boolText a.isDll)),
           (keyIs64Bit, FieldValue.bare (boolText a.is64bit))])) := by
  rw [fieldsToJSON_text, List.nil_append]
  unfold parseFields
  obtain ⟨m, hm⟩ := fuel_split _
    (quotedEntry_length (pad level) keyPeBaseOffset (hexText a.peBaseOffset)
      ((if a.hasNtHdrs t = true then
          quotedEntry (fieldBreak ++ pad level) keyNtFileHdr (hexText a.ntFileHdrsOffset)
        else id)
        (quotedEntry (fieldBreak ++ pad level) keySectionsHdrs (hexText a.secHdrsOffset)
          (bareEntry (fieldBreak ++ pad level) keySectionsCount (decText a.secCount)
            (bareEntry (fieldBreak ++ pad level) keyIsDll (boolText a.isDll)
              (bareEntry (fieldBreak ++ pad level) keyIs64Bit (boolText a.is64bit) []))))))
  rw [hm]
  rw [readFields_quotedEntry (m + 6) _ _ _ _ hpad (by decide) (quote_not_mem_hexText _)]
  by_cases hnt : a.hasNtHdrs t = true
  · rw [if_pos hnt, if_pos hnt,
      readFields_quotedEntry (m + 5) _ _ _ _ (quote_not_mem_break _ hpad) (by decide)
        (quote_not_mem_hexText _),
      readFields_tail m _ hpad]
    rfl
  · rw [if_neg hnt, if_neg hnt, id, readFields_tail (m + 1) _ hpad]
    rfl

theorem fieldsToJSON_append (t : Target) (pad : Nat → List Char) (a : PeArtefacts)
    (outs : List Char) (level : Nat) :
    (a.fieldsToJSON t false pad outs level).1 =
      outs ++ (a.fieldsToJSON t false pad [] level).1 := by
  rw [fieldsToJSON_text t pad a outs, fieldsToJSON_text t pad a [], List.nil_append]

theorem offset_eq_of_not_has {t : Target} {off : Nat} (h : ¬ ((off != invalidSize t) = true)) :
    off = invalidSize t := by
  by_contra hne
  exact h (bne_iff_ne.mpr hne)

/-- C8: the text `fieldsToJSON` appends to the stream in a build without `_DEBUG`, read
back as a sequence of entries, has the keys `pe_base_offset`, `nt_file_hdr`,
`sections_hdrs`, `sections_count`, `is_dll`, `is_64_bit` in this order, the `nt_file_hdr`
entry being there iff `hasNtHdrs()` holds; the value under `sections_hdrs` is the
hexadecimal rendering of `secHdrsOffset`, hence of the sentinel when there is no section
table.  The padding inserted by `OUT_PADDED` is assumed to hold no double quote. -/
theorem fieldsToJSON_keys (t : Target) (pad : Nat → List Char) (a : PeArtefacts)
    (outs : List Char) (level : Nat) (hpad : quoteChar ∉ pad level) :
    (a.fieldsToJSON t false pad outs level).1 =
      outs ++ (a.fieldsToJSON t false pad [] level).1 ∧
    fieldKeys (a.fieldsToJSON t false pad [] level).1 =
      some ([keyPeBaseOffset] ++ (if a.hasNtHdrs t = true then [keyNtFileHdr] else []) ++
        [keySectionsHdrs, keySectionsCount, keyIsDll, keyIs64Bit]) ∧
    ((∃ ks, fieldKeys (a.fieldsToJSON t false pad [] level).1 = some ks ∧ keyNtFileHdr ∈ ks) ↔
      a.hasNtHdrs t = true) ∧
    fieldValue keySectionsHdrs (a.fieldsToJSON t false pad [] level).1 =
      some (FieldValue.quoted
        (hexText (if a.hasSectionHdrs t = true then a.secHdrsOffset else invalidSize t))) := by
  have hparse := parseFields_fieldsToJSON t pad a level hpad
  have hkeys : fieldKeys (a.fieldsToJSON t false pad [] level).1 =
      some ([keyPeBaseOffset] ++ (if a.hasNtHdrs t = true then [keyNtFileHdr] else []) ++
        [keySectionsHdrs, keySectionsCount, keyIsDll, keyIs64Bit]) := by
    unfold fieldKeys
    rw [hparse]
    by_cases hnt : a.hasNtHdrs t = true
    · rw [if_pos hnt, if_pos hnt]; rfl
    · rw [if_neg hnt, if_neg hnt]; rfl
  have hsec : (if a.hasSectionHdrs t = true then a.secHdrsOffset else invalidSize t) =
      a.secHdrsOffset := by
    by_cases hs : a.hasSectionHdrs t = true
    · rw [if_pos hs]
    · rw [if_neg hs]
      exact (offset_eq_of_not_has hs).symm
  refine ⟨fieldsToJSON_append t pad a outs level, hkeys, ?_, ?_⟩
  · rw [hkeys]
    by_cases hnt : a.hasNtHdrs t = true
    · rw [if_pos hnt]
      exact ⟨fun _ => hnt, fun _ => ⟨_, rfl, by decide⟩⟩
    · rw [if_neg hnt]
      constructor
      · rintro ⟨ks, hks, hmem⟩
        rw [← Option.some.inj hks] at hmem
        exact absurd hmem (by decide)
      · exact fun h => absurd h hnt
  · unfold fieldValue
    rw [hparse, hsec]
    have h31 : (keySectionsHdrs == keyPeBaseOffset) = false := by decide
    have h32 : (keySectionsHdrs == keyNtFileHdr) = false := by decide
    by_cases hnt : a.hasNtHdrs t = true
    · rw [if_pos hnt]
      simp [List.lookup, h31, h32]
    · rw [if_neg hnt]
      simp [List.lookup, h31]

theorem fieldsToJSON_keys_witness :
    quoteChar ∉ blanks 2 ∧
    fieldKeys (sampleArtefacts.fieldsToJSON .x64 false blanks [] 2).1 =
      some [keyPeBaseOffset, keyNtFileHdr, keySectionsHdrs, keySectionsCount, keyIsDll,
        keyIs64Bit] ∧
    fieldKeys ((PeArtefacts.new .x64).fieldsToJSON .x64 false blanks [] 2).1 =
      some [keyPeBaseOffset, keySectionsHdrs, keySectionsCount, keyIsDll, keyIs64Bit] ∧
    fieldValue keySectionsHdrs ((PeArtefacts.new .x64).fieldsToJSON .x64 false blanks [] 2).1 =
      some (FieldValue.quoted "ffffffffffffffff".toList) :=
  ⟨by decide, (fieldsToJSON_keys .x64 blanks sampleArtefacts [] 2 (by decide)).2.1,
   (fieldsToJSON_keys .x64 blanks (PeArtefacts.new .x64) [] 2 (by decide)).2.1,
   ((fieldsToJSON_keys .x64 blanks (PeArtefacts.new .x64) [] 2 (by decide)).2.2.2).trans
     (by decide)⟩

/-! ## The text emitted in the `_DEBUG` build -/

theorem text_calculated_image_size :
    "\"calculated_image_size\" : ".toList =
      quoteChar :: (keyCalculatedImageSize ++ quoteChar :: keySeparator) := by
  decide

/-- The text emitted when `_DEBUG` is defined: the entry `calculated_image_size`, a bare
hexadecimal number, stands between `sections_count` and `is_dll`. -/
theorem fieldsToJSON_text_debug (t : Target) (pad : Nat → List Char) (a : PeArtefacts)
    (outs : List Char) (level : Nat) :
    (a.fieldsToJSON t true pad outs level).1 =
      outs ++ quotedEntry (pad level) keyPeBaseOffset (hexText a.peBaseOffset)
        ((if a.hasNtHdrs t = true then
            quotedEntry (fieldBreak ++ pad level) keyNtFileHdr (hexText a.ntFileHdrsOffset)
          else id)
          (quotedEntry (fieldBreak ++ pad level) keySectionsHdrs (hexText a.secHdrsOffset)
            (bareEntry (fieldBreak ++ pad level) keySectionsCount (decText a.secCount)
              (bareEntry (fieldBreak ++ pad level) keyCalculatedImageSize
                (hexText a.calculatedImgSize)
                (bareEntry (fieldBreak ++ pad level) keyIsDll (boolText a.isDll)
                  (bareEntry (fieldBreak ++ pad level) keyIs64Bit
                    (boolText a.is64bit) [])))))) := by
  unfold PeArtefacts.fieldsToJSON OUT_PADDED quotedEntry bareEntry
  rw [text_quote, text_break, text_pe_base_offset, text_nt_file_hdr, text_sections_hdrs,
    text_sections_count, text_calculated_image_size, text_is_dll, text_is_64_bit]
  by_cases hnt : a.hasNtHdrs t = true
  · simp only [hnt, if_true, List.append_assoc, List.cons_append,
      List.nil_append, List.append_nil]
  · simp only [hnt, if_true, if_false, Bool.false_eq_true, List.append_assoc, List.cons_append,
      List.nil_append, List.append_nil, id]

theorem fieldsToJSON_append_debug (t : Target) (pad : Nat → List Char) (a : PeArtefacts)
    (outs : List Char) (level : Nat) :
    (a.fieldsToJSON t true pad outs level).1 =
      outs ++ (a.fieldsToJSON t true pad [] level).1 := by
  rw [fieldsToJSON_text_debug t pad a outs, fieldsToJSON_text_debug t pad a [],
    List.nil_append]

theorem quotedEntry_length_pos (p key s r : List Char) :
    7 ≤ (quotedEntry p key s r).length := by
  have hsep : keySeparator.length = 3 := rfl
  unfold quotedEntry
  simp only [List.length_append, List.length_cons, hsep]
  omega

theorem fuel_split_debug (n : Nat) (h : 7 ≤ n) : ∃ m, n + 1 = m + 8 := ⟨n - 7, by omega⟩

/-- The entries from `sections_hdrs` on in the `_DEBUG` build, read with enough fuel. -/
theorem readFields_tail_debug (m : Nat) (p : List Char) (hp : quoteChar ∉ p)
    (sec count img : Nat) (dll b64 : Bool) :
    readFields (m + 6)
        (quotedEntry (fieldBreak ++ p) keySectionsHdrs (hexText sec)
          (bareEntry (fieldBreak ++ p) keySectionsCount (decText count)
            (bareEntry (fieldBreak ++ p) keyCalculatedImageSize (hexText img)
              (bareEntry (fieldBreak ++ p) keyIsDll (boolText dll)
                (bareEntry (fieldBreak ++ p) keyIs64Bit (boolText b64) []))))) =
      some [(keySectionsHdrs, FieldValue.quoted (hexText sec)),
            (keySectionsCount, FieldValue.bare (decText count)),
            (keyCalculatedImageSize, FieldValue.bare (hexText img)),
            (keyIsDll, FieldValue.bare (boolText dll)),
            (keyIs64Bit, FieldValue.bare (boolText b64))] := by
  have hbp := quote_not_mem_break p hp
  rw [readFields_quotedEntry (m + 5) _ _ _ _ hbp (by decide) (quote_not_mem_hexText sec),
    readFields_bareEntry (m + 4) _ _ _ _ hbp (by decide) (decText_ne_nil count)
      (decText_isDigit count) (endsNumber_bareEntry _ _ _ _),
    readFields_bareEntry (m + 3) _ _ _ _ hbp (by decide) (hexText_ne_nil img)
      (hexText_isDigit img) (endsNumber_bareEntry _ _ _ _),
    readFields_bareEntry (m + 2) _ _ _ _ hbp (by decide) (boolText_ne_nil dll)
      (boolText_isDigit dll) (endsNumber_bareEntry _ _ _ _),
    readFields_bareEntry (m + 1) _ _ _ _ hbp (by decide) (boolText_ne_nil b64)
      (boolText_isDigit b64) endsNumber_nil,
    readFields_nil m]
  rfl

/-- The reader recovers every entry of the text emitted in the `_DEBUG` build. -/
theorem parseFields_fieldsToJSON_debug (t : Target) (pad : Nat → List Char) (a : PeArtefacts)
    (level : Nat) (hpad : quoteChar ∉ pad level) :
    parseFields (a.fieldsToJSON t true pad [] level).1 =
      some ((keyPeBaseOffset, FieldValue.quoted (hexText a.peBaseOffset)) ::
        ((if a.hasNtHdrs t = true then
            [(keyNtFileHdr, FieldValue.quoted (hexText a.ntFileHdrsOffset))]
          else []) ++
          [(keySectionsHdrs, FieldValue.quoted (hexText a.secHdrsOffset)),
           (keySectionsCount, FieldValue.bare (decText a.secCount)),
           (keyCalculatedImageSize, FieldValue.bare (hexText a.calculatedImgSize)),
           (keyIsDll, FieldValue.bare (boolText a.isDll)),
           (keyIs64Bit, FieldValue.bare (boolText a.is64bit))])) := by
  rw [fieldsToJSON_text_debug, List.nil_append]
  unfold parseFields
  obtain ⟨m, hm⟩ := fuel_split_debug _
    (quotedEntry_length_pos (pad level) keyPeBaseOffset (hexText a.peBaseOffset)
      ((if a.hasNtHdrs t = true then
          quotedEntry (fieldBreak ++ pad level) keyNtFileHdr (hexText a.ntFileHdrsOffset)
        else id)
        (quotedEntry (fieldBreak ++ pad level) keySectionsHdrs (hexText a.secHdrsOffset)
          (bareEntry (fieldBreak ++ pad level) keySectionsCount (decText a.secCount)
            (bareEntry (fieldBreak ++ pad level) keyCalculatedImageSize
              (hexText a.calculatedImgSize)
              (bareEntry (fieldBreak ++ pad level) keyIsDll (boolText a.isDll)
                (bareEntry (fieldBreak ++ pad level) keyIs64Bit
                  (boolText a.is64bit) [])))))))
  rw [hm]
  rw [readFields_quotedEntry (m + 7) _ _ _ _ hpad (by decide) (quote_not_mem_hexText _)]
  by_cases hnt : a.hasNtHdrs t = true
  · rw [if_pos hnt, if_pos hnt,
      readFields_quotedEntry (m + 6) _ _ _ _ (quote_not_mem_break _ hpad) (by decide)
        (quote_not_mem_hexText _),
      readFields_tail_debug m _ hpad]
    rfl
  · rw [if_neg hnt, if_neg hnt, id, readFields_tail_debug (m + 1) _ hpad]
    rfl

/-! ## Round trip of the offsets and the section count -/

/-- C9: reading the text emitted by `fieldsToJSON` back, in the build without `_DEBUG`
and in the build with it, the hexadecimal strings under `pe_base_offset`, `nt_file_hdr`
(an absent entry meaning the sentinel) and `sections_hdrs` and the decimal number under
`sections_count` give `peBaseOffset`, `ntFileHdrsOffset`, `secHdrsOffset` and `secCount`.
The padding inserted by `OUT_PADDED` is assumed to hold no double quote. -/
theorem readOffsets_fieldsToJSON (t : Target) (debug : Bool) (pad : Nat → List Char)
    (a : PeArtefacts) (outs : List Char) (level : Nat) (hpad : quoteChar ∉ pad level) :
    (a.fieldsToJSON t debug pad outs level).1 =
      outs ++ (a.fieldsToJSON t debug pad [] level).1 ∧
    readOffsets t (a.fieldsToJSON t debug pad [] level).1 =
      some (a.peBaseOffset, a.ntFileHdrsOffset, a.secHdrsOffset, a.secCount) := by
  have h21 : (keyNtFileHdr == keyPeBaseOffset) = false := by decide
  have h23 : (keyNtFileHdr == keySectionsHdrs) = false := by decide
  have h24 : (keyNtFileHdr == keySectionsCount) = false := by decide
  have h25 : (keyNtFileHdr == keyIsDll) = false := by decide
  have h26 : (keyNtFileHdr == keyIs64Bit) = false := by decide
  have h27 : (keyNtFileHdr == keyCalculatedImageSize) = false := by decide
  have h31 : (keySectionsHdrs == keyPeBaseOffset) = false := by decide
  have h32 : (keySectionsHdrs == keyNtFileHdr) = false := by decide
  have h41 : (keySectionsCount == keyPeBaseOffset) = false := by decide
  have h42 : (keySectionsCount == keyNtFileHdr) = false := by decide
  have h43 : (keySectionsCount == keySectionsHdrs) = false := by decide
  cases debug
  · refine ⟨fieldsToJSON_append t pad a outs level, ?_⟩
    unfold readOffsets
    rw [parseFields_fieldsToJSON t pad a level hpad]
    by_cases hnt : a.hasNtHdrs t = true
    · rw [if_pos hnt]
      simp [List.lookup, h21, h31, h32, h41, h42, h43, hexField, decField,
        parseNumber_hexText, parseNumber_decText]
    · rw [if_neg hnt]
      have hoff : a.ntFileHdrsOffset = invalidSize t := offset_eq_of_not_has hnt
      simp [List.lookup, h21, h23, h24, h25, h26, h31, h41, h43, hexField, decField,
        parseNumber_hexText, parseNumber_decText, hoff]
  · refine ⟨fieldsToJSON_append_debug t pad a outs level, ?_⟩
    unfold readOffsets
    rw [parseFields_fieldsToJSON_debug t pad a level hpad]
    by_cases hnt : a.hasNtHdrs t = true
    · rw [if_pos hnt]
      simp [List.lookup, h21, h31, h32, h41, h42, h43, hexField, decField,
        parseNumber_hexText, parseNumber_decText]
    · rw [if_neg hnt]
      have hoff : a.ntFileHdrsOffset = invalidSize t := offset_eq_of_not_has hnt
      simp [List.lookup, h21, h23, h24, h25, h26, h27, h31, h41, h43, hexField, decField,
        parseNumber_hexText, parseNumber_decText, hoff]

theorem readOffsets_fieldsToJSON_witness :
    quoteChar ∉ blanks 2 ∧
    readOffsets .x64 (sampleArtefacts.fieldsToJSON .x64 false blanks [] 2).1 =
      some (0x40, 0x104, 0x1f8, 3) ∧
    readOffsets .x64 (largeImageArtefacts.fieldsToJSON .x64 true blanks [] 2).1 =
      some (0x40, 0x104, 0x1f8, 3) ∧
    readOffsets .x86 ((PeArtefacts.new .x86).fieldsToJSON .x86 true blanks [] 2).1 =
      some (0xffffffff, 0xffffffff, 0xffffffff, 0) :=
  ⟨by decide, (readOffsets_fieldsToJSON .x64 false blanks sampleArtefacts [] 2 (by decide)).2,
   (readOffsets_fieldsToJSON .x64 true blanks largeImageArtefacts [] 2 (by decide)).2,
   (readOffsets_fieldsToJSON .x86 true blanks (PeArtefacts.new .x86) [] 2 (by decide)).2⟩

/-! ## `ArtefactScanReport`: members set by the constructor -/

/-- C11: the constructed report holds the supplied `PeArtefacts` value unchanged, its
`initialRegionSize` is the supplied module size (whatever the module size becomes),
`has_pe` is true and `has_shellcode` is false. -/
theorem new_members (t : Target) (base : BaseCtor) (h m sz : Nat) (st : t_scan_status)
    (peArt : PeArtefacts) :
    (ArtefactScanReport.new t base h m sz st peArt).artefacts = peArt ∧
    (ArtefactScanReport.new t base h m sz st peArt).initialRegionSize = sz ∧
    (ArtefactScanReport.new t base h m sz st peArt).has_pe = true ∧
    (ArtefactScanReport.new t base h m sz st peArt).has_shellcode = false := by
  refine ⟨rfl, rfl, ?_, ?_⟩ <;>
  · unfold ArtefactScanReport.new
    dsimp only
    split_ifs <;> rfl

/-- C14: when the base constructor stores the supplied size unchanged, the module size
of the constructed report is never smaller than `initialRegionSize`, also when
`peBaseOffset` is the sentinel or the `size_t` sum wraps. -/
theorem new_moduleSize_ge_initial (t : Target) (base : BaseCtor) (hbase : base.StoresSize)
    (h m sz : Nat) (st : t_scan_status) (peArt : PeArtefacts) :
    (ArtefactScanReport.new t base h m sz st peArt).initialRegionSize ≤
      (ArtefactScanReport.new t base h m sz st peArt).moduleSize := by
  have hinit : (ArtefactScanReport.new t base h m sz st peArt).initialRegionSize = sz := rfl
  rw [hinit, new_moduleSize, hbase h m sz st]
  exact le_max_left _ _

theorem new_moduleSize_ge_initial_witness :
    plainBase.StoresSize ∧
    (ArtefactScanReport.new .x64 plainBase 0x1c4 0x20000 0x3000 1
        wrappingArtefacts).initialRegionSize ≤
      (ArtefactScanReport.new .x64 plainBase 0x1c4 0x20000 0x3000 1
        wrappingArtefacts).moduleSize ∧
    (ArtefactScanReport.new .x64 plainBase 0x1c4 0x20000 0x3000 1
        wrappingArtefacts).moduleSize = 0x3000 :=
  ⟨plainBase_storesSize,
   new_moduleSize_ge_initial .x64 plainBase plainBase_storesSize 0x1c4 0x20000 0x3000 1
     wrappingArtefacts,
   by decide⟩

/-! ## `PeArtefacts`: the empty record, and `dropPeBase` as a partial inverse -/

/-- C12: a default-constructed record has `peBaseOffset`, `ntFileHdrsOffset` and
`secHdrsOffset` equal to the sentinel, `secCount` and `calculatedImgSize` equal to 0 and
`isMzPeFound` false; so `hasNtHdrs()` and `hasSectionHdrs()` are false and `dropPeBase`
returns the sentinel for every argument. -/
theorem new_isEmpty (t : Target) :
    (PeArtefacts.new t).peBaseOffset = invalidSize t ∧
    (PeArtefacts.new t).ntFileHdrsOffset = invalidSize t ∧
    (PeArtefacts.new t).secHdrsOffset = invalidSize t ∧
    (PeArtefacts.new t).secCount = 0 ∧
    (PeArtefacts.new t).calculatedImgSize = 0 ∧
    (PeArtefacts.new t).isMzPeFound = false ∧
    (PeArtefacts.new t).hasNtHdrs t = false ∧
    (PeArtefacts.new t).hasSectionHdrs t = false ∧
    ∀ x : Nat, (PeArtefacts.new t).dropPeBase t x = invalidU64 := by
  have hbne : (invalidSize t != invalidSize t) = false := by
    rw [bne_self_eq_false]
  have hbase : (PeArtefacts.new t).peBaseOffset = invalidSize t := rfl
  refine ⟨rfl, rfl, rfl, rfl, rfl, rfl, hbne, hbne, fun x => ?_⟩
  unfold PeArtefacts.dropPeBase
  rw [if_pos (Or.inl hbase)]

theorem invalidU64_lt : invalidU64 < 2 ^ 64 := by
  rw [invalidU64_eq]
  norm_num

theorem dropPeBase_of_valid (t : Target) (a : PeArtefacts) (x : Nat) (hx : IsU64 x)
    (hbase : a.peBaseOffset ≠ invalidSize t) (harg : x ≠ invalidU64)
    (hle : a.peBaseOffset ≤ x) : a.dropPeBase t x = x - a.peBaseOffset := by
  unfold PeArtefacts.dropPeBase
  have h1 : ¬ (a.peBaseOffset = invalidSize t ∨ x = invalidU64) := by
    rintro (h | h)
    · exact hbase h
    · exact harg h
  rw [if_neg h1, if_neg (Nat.not_lt.mpr hle)]
  exact sub_u64_of_le hx hle

/-- C13: for a 64-bit unsigned `x`, `dropPeBase x` is the sentinel iff `peBaseOffset` is
the sentinel, or `x` is the sentinel, or `x < peBaseOffset`; a result `r` that is not the
sentinel satisfies `r ≤ x` and `r + peBaseOffset = x`, the sum being exact and below
`2^64`. -/
theorem dropPeBase_sentinel_iff (t : Target) (a : PeArtefacts) (x : Nat) (hx : IsU64 x) :
    (a.dropPeBase t x = invalidU64 ↔
      (a.peBaseOffset = invalidSize t ∨ x = invalidU64 ∨ x < a.peBaseOffset)) ∧
    (a.dropPeBase t x ≠ invalidU64 →
      a.dropPeBase t x ≤ x ∧ a.dropPeBase t x + a.peBaseOffset = x ∧
      a.dropPeBase t x + a.peBaseOffset < 2 ^ 64) := by
  have hx64 : x < 2 ^ 64 := hx
  have hinv : invalidU64 = 2 ^ 64 - 1 := invalidU64_eq
  by_cases hbase : a.peBaseOffset = invalidSize t
  · have hres : a.dropPeBase t x = invalidU64 := by
      unfold PeArtefacts.dropPeBase
      rw [if_pos (Or.inl hbase)]
    exact ⟨⟨fun _ => Or.inl hbase, fun _ => hres⟩, fun hne => absurd hres hne⟩
  by_cases harg : x = invalidU64
  · have hres : a.dropPeBase t x = invalidU64 := by
      unfold PeArtefacts.dropPeBase
      rw [if_pos (Or.inr harg)]
    exact ⟨⟨fun _ => Or.inr (Or.inl harg), fun _ => hres⟩, fun hne => absurd hres hne⟩
  by_cases hlt : x < a.peBaseOffset
  · have hres : a.dropPeBase t x = invalidU64 := by
      unfold PeArtefacts.dropPeBase
      rw [if_neg (not_or.mpr ⟨hbase, harg⟩), if_pos hlt]
    exact ⟨⟨fun _ => Or.inr (Or.inr hlt), fun _ => hres⟩, fun hne => absurd hres hne⟩
  have hle : a.peBaseOffset ≤ x := Nat.le_of_not_lt hlt
  have hres := dropPeBase_of_valid t a x hx hbase harg hle
  rw [hres]
  refine ⟨⟨fun h => ?_, fun h => ?_⟩, fun _ => ⟨Nat.sub_le _ _, Nat.sub_add_cancel hle, ?_⟩⟩
  · exfalso
    apply harg
    omega
  · rcases h with h | h | h
    · exact absurd h hbase
    · exact absurd h harg
    · exact absurd h hlt
  · rw [Nat.sub_add_cancel hle]
    exact hx64

theorem dropPeBase_sentinel_iff_witness :
    IsU64 0x1f8 ∧ sampleArtefacts.dropPeBase .x64 0x1f8 ≠ invalidU64 ∧
    sampleArtefacts.dropPeBase .x64 0x1f8 ≤ 0x1f8 ∧
    sampleArtefacts.dropPeBase .x64 0x1f8 + sampleArtefacts.peBaseOffset = 0x1f8 :=
  ⟨by decide, by decide,
   ((dropPeBase_sentinel_iff .x64 sampleArtefacts 0x1f8 (by decide)).2 (by decide)).1,
   ((dropPeBase_sentinel_iff .x64 sampleArtefacts 0x1f8 (by decide)).2 (by decide)).2.1⟩

/-! ## `ArtefactsMapping`: the order by score -/

theorem lt_iff (a b : ArtefactsMapping) : a.lt b = true ↔ a.getScore < b.getScore := by
  unfold ArtefactsMapping.lt
  exact decide_eq_true_iff

theorem lt_false_iff (a b : ArtefactsMapping) : a.lt b = false ↔ b.getScore ≤ a.getScore := by
  unfold ArtefactsMapping.lt
  rw [decide_eq_false_iff_not, Nat.not_lt]

theorem incomparable_iff (a b : ArtefactsMapping) :
    (a.lt b = false ∧ b.lt a = false) ↔ a.getScore = b.getScore := by
  rw [lt_false_iff, lt_false_iff]
  omega

/-- C15: for `a` with section headers and `b` without, `getScore b ≤ getScore a`, so
`a < b` never holds; the scores are equal exactly when `a` has neither NT nor stub
header and `b` has both, and then neither `a < b` nor `b < a`. -/
theorem getScore_sections_ge (a b : ArtefactsMapping) (ha : a.sec_hdr ≠ 0)
    (hb : b.sec_hdr = 0) :
    b.getScore ≤ a.getScore ∧ a.lt b = false ∧
    (a.getScore = b.getScore ↔
      (a.nt_file_hdr = 0 ∧ a.dos_hdr = 0 ∧ b.nt_file_hdr ≠ 0 ∧ b.dos_hdr ≠ 0)) ∧
    (a.getScore = b.getScore → a.lt b = false ∧ b.lt a = false) := by
  have hle : b.getScore ≤ a.getScore := by
    rw [getScore_sum a, getScore_sum b, if_pos ha, if_neg (not_not.mpr hb)]
    split_ifs <;> omega
  refine ⟨hle, (lt_false_iff a b).mpr hle, ?_, fun heq => (incomparable_iff a b).mpr heq⟩
  rw [getScore_sum a, getScore_sum b, if_pos ha, if_neg (not_not.mpr hb)]
  by_cases h1 : a.nt_file_hdr = 0 <;> by_cases h2 : a.dos_hdr = 0 <;>
    by_cases h3 : b.nt_file_hdr = 0 <;> by_cases h4 : b.dos_hdr = 0 <;>
    simp [h1, h2, h3, h4]

theorem getScore_sections_ge_witness :
    sectionsMapping.sec_hdr ≠ 0 ∧ ntStubMapping.sec_hdr = 0 ∧
    ntStubMapping.getScore ≤ sectionsMapping.getScore ∧
    sectionsMapping.getScore = 3 ∧ ntStubMapping.getScore = 3 ∧
    sectionsMapping.lt ntStubMapping = false ∧ ntStubMapping.lt sectionsMapping = false :=
  ⟨by decide, by decide,
   (getScore_sections_ge sectionsMapping ntStubMapping (by decide) (by decide)).1,
   by decide, by decide,
   (getScore_sections_ge sectionsMapping ntStubMapping (by decide) (by decide)).2.2.2
     (by decide)⟩

/-- C16: `getScore()` is at most 6, `foundAny()` is true iff `getScore() ≥ 2`, and a
freshly constructed mapping has score 0 and `foundAny()` false. -/
theorem getScore_range (m : ArtefactsMapping) :
    m.getScore ≤ 6 ∧ (m.foundAny = true ↔ 2 ≤ m.getScore) ∧
    ∀ (page : Nat) (b64 : Bool),
      (ArtefactsMapping.new page b64).getScore = 0 ∧
      (ArtefactsMapping.new page b64).foundAny = false := by
  refine ⟨?_, ?_, fun _ _ => ⟨rfl, rfl⟩⟩
  · rw [getScore_sum]
    split_ifs <;> omega
  · rw [getScore_sum]
    unfold ArtefactsMapping.foundAny
    by_cases h1 : m.sec_hdr = 0 <;> by_cases h2 : m.nt_file_hdr = 0 <;>
      by_cases h3 : m.dos_hdr = 0 <;> simp [h1, h2, h3]

/-! ## `ArtefactsMapping::operator =` -/

theorem assign_self (a : ArtefactsMapping) : a.assign a = a := by
  cases a
  rfl

theorem assignAt_left (store : Nat → ArtefactsMapping) (pa pb : Nat) :
    ArtefactsMapping.assignAt store pa pb pa = (store pa).assign (store pb) := by
  unfold ArtefactsMapping.assignAt
  rw [if_pos rfl]

theorem assignAt_right (store : Nat → ArtefactsMapping) (pa pb : Nat) :
    ArtefactsMapping.assignAt store pa pb pb = store pb := by
  unfold ArtefactsMapping.assignAt
  by_cases h : pb = pa
  · rw [if_pos h, h, assign_self]
  · rw [if_neg h]

/-- C17: after `a = b` (the objects at `pa` and `pb` of a store), the members
`pe_image_base`, `dos_hdr`, `nt_file_hdr`, `sec_hdr`, `sec_count`, `isMzPeFound` and
`is64bit` of `a` are those of `b`, hence so are `getScore` and `foundAny`; `b` and every
object other than `a` are unchanged; `memPage` of `a` is the one `a` had before, so it is
not that of `b` when the two differed. -/
theorem assignAt_frame (store : Nat → ArtefactsMapping) (pa pb : Nat) :
    (ArtefactsMapping.assignAt store pa pb pa).pe_image_base = (store pb).pe_image_base ∧
    (ArtefactsMapping.assignAt store pa pb pa).dos_hdr = (store pb).dos_hdr ∧
    (ArtefactsMapping.assignAt store pa pb pa).nt_file_hdr = (store pb).nt_file_hdr ∧
    (ArtefactsMapping.assignAt store pa pb pa).sec_hdr = (store pb).sec_hdr ∧
    (ArtefactsMapping.assignAt store pa pb pa).sec_count = (store pb).sec_count ∧
    (ArtefactsMapping.assignAt store pa pb pa).isMzPeFound = (store pb).isMzPeFound ∧
    (ArtefactsMapping.assignAt store pa pb pa).is64bit = (store pb).is64bit ∧
    (ArtefactsMapping.assignAt store pa pb pa).getScore = (store pb).getScore ∧
    (ArtefactsMapping.assignAt store pa pb pa).foundAny = (store pb).foundAny ∧
    ArtefactsMapping.assignAt store pa pb pb = store pb ∧
    (∀ p, p ≠ pa → ArtefactsMapping.assignAt store pa pb p = store p) ∧
    (ArtefactsMapping.assignAt store pa pb pa).memPage = (store pa).memPage ∧
    ((store pa).memPage ≠ (store pb).memPage →
      (ArtefactsMapping.assignAt store pa pb pa).memPage ≠ (store pb).memPage) := by
  have hmem : (ArtefactsMapping.assignAt store pa pb pa).memPage = (store pa).memPage := by
    rw [assignAt_left]
    rfl
  refine ⟨?_, ?_, ?_, ?_, ?_, ?_, ?_, ?_, ?_, assignAt_right store pa pb, fun p hp => ?_,
    hmem, fun hne => ?_⟩
  · rw [assignAt_left]; rfl
  · rw [assignAt_left]; rfl
  · rw [assignAt_left]; rfl
  · rw [assignAt_left]; rfl
  · rw [assignAt_left]; rfl
  · rw [assignAt_left]; rfl
  · rw [assignAt_left]; rfl
  · rw [assignAt_left]; rfl
  · rw [assignAt_left]; rfl
  · unfold ArtefactsMapping.assignAt
    rw [if_neg hp]
  · rw [hmem]
    exact hne

theorem assignAt_frame_witness :
    (sampleStore 0x100).memPage ≠ (sampleStore 0x200).memPage ∧
    (ArtefactsMapping.assignAt sampleStore 0x100 0x200 0x100).memPage = 0x5000 ∧
    (ArtefactsMapping.assignAt sampleStore 0x100 0x200 0x100).memPage ≠
      (sampleStore 0x200).memPage ∧
    (ArtefactsMapping.assignAt sampleStore 0x100 0x200 0x100).nt_file_hdr = 0x4fc0 :=
  ⟨by decide,
   (assignAt_frame sampleStore 0x100 0x200).2.2.2.2.2.2.2.2.2.2.2.1.trans (by decide),
   (assignAt_frame sampleStore 0x100 0x200).2.2.2.2.2.2.2.2.2.2.2.2 (by decide),
   (assignAt_frame sampleStore 0x100 0x200).2.2.1.trans (by decide)⟩

/-! ## `ArtefactsMapping::operator <` is a strict weak ordering -/

/-- C18: `operator <` is irreflexive, asymmetric and transitive; two mappings are
incomparable iff their scores are equal, and incomparability is transitive; a
max-selection that replaces the current mapping only when `current < candidate` keeps
the current mapping when the scores are equal. -/
theorem lt_strictWeakOrder :
    (∀ a : ArtefactsMapping, a.lt a = false) ∧
    (∀ a b : ArtefactsMapping, a.lt b = true → b.lt a = false) ∧
    (∀ a b c : ArtefactsMapping, a.lt b = true → b.lt c = true → a.lt c = true) ∧
    (∀ a b : ArtefactsMapping,
      (a.lt b = false ∧ b.lt a = false) ↔ a.getScore = b.getScore) ∧
    (∀ a b c : ArtefactsMapping, (a.lt b = false ∧ b.lt a = false) →
      (b.lt c = false ∧ c.lt b = false) → (a.lt c = false ∧ c.lt a = false)) ∧
    (∀ current candidate : ArtefactsMapping, current.getScore = candidate.getScore →
      selectMax current candidate = current) := by
  refine ⟨fun a => ?_, fun a b hab => ?_, fun a b c hab hbc => ?_, incomparable_iff,
    fun a b c hab hbc => ?_, fun cur cand heq => ?_⟩
  · exact (lt_false_iff a a).mpr (Nat.le_refl _)
  · exact (lt_false_iff b a).mpr (Nat.le_of_lt ((lt_iff a b).mp hab))
  · exact (lt_iff a c).mpr (Nat.lt_trans ((lt_iff a b).mp hab) ((lt_iff b c).mp hbc))
  · exact (incomparable_iff a c).mpr
      (((incomparable_iff a b).mp hab).trans ((incomparable_iff b c).mp hbc))
  · have hnot : cur.lt cand = false := ((incomparable_iff cur cand).mpr heq).1
    unfold selectMax
    rw [hnot]
    rfl

theorem lt_strictWeakOrder_witness :
    sectionsMapping.getScore = ntStubMapping.getScore ∧
    selectMax sectionsMapping ntStubMapping = sectionsMapping ∧
    selectMax ntOnlyMapping sectionsMapping = sectionsMapping ∧
    ntOnlyMapping.lt sectionsMapping = true ∧ sectionsMapping.lt ntOnlyMapping = false :=
  ⟨by decide, lt_strictWeakOrder.2.2.2.2.2 sectionsMapping ntStubMapping (by decide),
   by decide, by decide,
   lt_strictWeakOrder.2.1 ntOnlyMapping sectionsMapping (by decide)⟩

end pesieve
